import Mathlib

/-!
Shallow embedding of the seat-reservation core of `containers.py`
(class `CassandraReservationSystem` plus `StressTestResults`).

The Cassandra store is modelled as three association lists (flights,
seat_availability, reservations).  A seat label `f"{chr(65+(n-1)//6)}{((n-1)%6)+1}"`
is represented by the pair of naturals `(65 + (n-1)/6, (n-1)%6 + 1)`:
the Python string is exactly the rendering of this pair (one character for
the first component, one digit 1..6 for the second), so distinct pairs give
distinct strings and conversely.  Timestamps and ids (uuid4) are naturals
supplied by the caller, randomness (`random.choice`) is an externally
supplied natural used as an index, and each place where a storage call can
raise is controlled by an explicit fault flag, mirroring the `try/except`
structure of `make_reservation_safe`.
-/

abbrev UserId := Nat
abbrev FlightId := Nat
abbrev ResId := Nat

/-- A seat label `chr(65+(n-1)//6)` ++ `str((n-1)%6+1)`, as the pair
(character code, digit). -/
abbrev SeatLabel := Nat × Nat

/-- One row of `seat_availability`. -/
structure SeatRow where
  is_available : Bool
  reserved_by : Option UserId
  reservation_time : Option Nat
deriving DecidableEq, Repr

/-- One row of `flights`. -/
structure FlightRow where
  origin : String
  destination : String
  departure_time : Nat
  arrival_time : Nat
  available_seats : Int
deriving DecidableEq, Repr

/-- One row of `reservations`. -/
structure ReservationRow where
  flight_id : FlightId
  user_id : UserId
  seat_number : SeatLabel
  reservation_time : Nat
  status : String
deriving DecidableEq, Repr

/-- The whole keyed store: `flights`, `seat_availability`
(keyed by (flight_id, seat_number)) and `reservations`. -/
structure Store where
  flights : List (FlightId × FlightRow)
  seats : List ((FlightId × SeatLabel) × SeatRow)
  reservations : List (ResId × ReservationRow)
deriving DecidableEq, Repr

/-- Lookup in an association list (first binding wins). -/
def lookupA {κ α : Type} [DecidableEq κ] : List (κ × α) → κ → Option α
  | [], _ => none
  | (k, v) :: t, key => if k = key then some v else lookupA t key

/-- Upsert into an association list: replace the first binding of the key,
or append a fresh binding (Cassandra INSERT/UPDATE semantics on a primary
key). -/
def upsertA {κ α : Type} [DecidableEq κ] : List (κ × α) → κ → α → List (κ × α)
  | [], key, val => [(key, val)]
  | (k, v) :: t, key, val =>
      if k = key then (key, val) :: t else (k, v) :: upsertA t key val

/-- Label written by `create_flight` for seat number `n` (1-based). -/
def seatLabel (n : Nat) : SeatLabel := (65 + (n - 1) / 6, (n - 1) % 6 + 1)

/-- The seat row `(is_available = true, reserved_by = null,
reservation_time = null)` that `create_flight` inserts. -/
def freshSeatRow : SeatRow := ⟨true, none, none⟩

/-- The seat-initialisation loop of `create_flight`:
`for seat_num in range(1, total_seats + 1): INSERT seat_availability`. -/
def insertSeats (st : Store) (fid : FlightId) : Nat → Store
  | 0 => st
  | n + 1 =>
      let st' := insertSeats st fid n
      { st' with seats := upsertA st'.seats (fid, seatLabel (n + 1)) freshSeatRow }

/-- Model of `create_flight`: insert the flight row (with `available_seats =
total_seats`), then one available seat row per seat number 1..total_seats. -/
def create_flight (st : Store) (fid : FlightId) (origin destination : String)
    (departure_time arrival_time : Nat) (total_seats : Nat) : Store :=
  insertSeats
    { st with
      flights := upsertA st.flights fid
        ⟨origin, destination, departure_time, arrival_time, (total_seats : Int)⟩ }
    fid total_seats

/-- The seat rows of one flight, as (label, row) pairs, in store order. -/
def seatsOf (st : Store) (fid : FlightId) : List (SeatLabel × SeatRow) :=
  st.seats.filterMap fun kv => if kv.1.1 = fid then some (kv.1.2, kv.2) else none

/-- The seat-sampling read of `make_reservation_safe`:
`SELECT seat_number WHERE flight_id = ? AND is_available = true LIMIT 10`. -/
def availableSample (st : Store) (fid : FlightId) : List SeatLabel :=
  ((st.seats.filter fun kv => kv.1.1 = fid ∧ kv.2.is_available = true).map
    fun kv => kv.1.2).take 10

/-- The lightweight transaction
`UPDATE seat_availability SET is_available = false, reserved_by = ?,
reservation_time = ? WHERE ... IF is_available = true` on one present row:
applied exactly when the row is currently available. -/
def lwtClaim (r : SeatRow) (u : UserId) (t : Nat) : Bool × SeatRow :=
  if r.is_available then (true, ⟨false, some u, some t⟩) else (false, r)

/-- Outcome messages of `make_reservation_safe`, as a closed variant. -/
inductive Reason where
  | reserved (seat : SeatLabel)
  | noSeats
  | seatTaken (seat : SeatLabel)
  | storageFailure
deriving DecidableEq, Repr

/-- Which storage calls inside the `try` block of `make_reservation_safe`
raise, mirroring its exception paths. `counterThrows` covers the
read-modify-write of `flights.available_seats`. -/
structure Faults where
  sampleThrows : Bool
  casThrows : Bool
  insertThrows : Bool
  counterThrows : Bool
  rollbackThrows : Bool
deriving DecidableEq, Repr

def noFaults : Faults := ⟨false, false, false, false, false⟩

/-- Result of one `make_reservation_safe` call: the post store, the returned
pair (reservation id or nil, reason), together with the final value of the
local `preferred_seat` variable, whether the conditional write applied, and
whether the compensating rollback write was attempted. -/
structure ClaimResult where
  store : Store
  res_id : Option ResId
  reason : Reason
  chosen : Option SeatLabel
  casApplied : Bool
  compAttempted : Bool
deriving DecidableEq, Repr

/-- The compensating write of the `except` branch:
`UPDATE seat_availability SET is_available = true, reserved_by = null,
reservation_time = null WHERE flight_id = ? AND seat_number = ?`
(unconditional). -/
def rollbackSeat (st : Store) (fid : FlightId) (seat : SeatLabel) : Store :=
  { st with seats := upsertA st.seats (fid, seat) freshSeatRow }

/-- The `except` branch of `make_reservation_safe`: if `preferred_seat` is
set, attempt the rollback (its own exception is swallowed by
`try/except: pass`), then return `(None, "Reservation failed: ...")`. -/
def exceptBranch (fl : Faults) (st : Store) (fid : FlightId)
    (seatOpt : Option SeatLabel) (cas : Bool) : ClaimResult :=
  match seatOpt with
  | none => ⟨st, none, .storageFailure, none, cas, false⟩
  | some s =>
      if fl.rollbackThrows then ⟨st, none, .storageFailure, some s, cas, true⟩
      else ⟨rollbackSeat st fid s, none, .storageFailure, some s, cas, true⟩

/-- Steps 2-4 of `make_reservation_safe` once a candidate seat is fixed:
the conditional write, the reservation INSERT, and the unguarded
read-decrement-write of `flights.available_seats`. -/
def claimSeat (fl : Faults) (st : Store) (user : UserId) (fid : FlightId)
    (seat : SeatLabel) (rid : ResId) (now : Nat) : ClaimResult :=
  if fl.casThrows then exceptBranch fl st fid (some seat) false
  else
    match lookupA st.seats (fid, seat) with
    | none => ⟨st, none, .seatTaken seat, some seat, false, false⟩
    | some row =>
        let res := lwtClaim row user now
        if res.1 then
          let st1 : Store := { st with seats := upsertA st.seats (fid, seat) res.2 }
          if fl.insertThrows then exceptBranch fl st1 fid (some seat) true
          else
            let st2 : Store :=
              { st1 with
                reservations :=
                  upsertA st1.reservations rid ⟨fid, user, seat, now, "confirmed"⟩ }
            if fl.counterThrows then exceptBranch fl st2 fid (some seat) true
            else
              match lookupA st2.flights fid with
              | none => exceptBranch fl st2 fid (some seat) true
              | some f =>
                  ⟨{ st2 with
                     flights := upsertA st2.flights fid
                       { f with available_seats := f.available_seats - 1 } },
                   some rid, .reserved seat, some seat, true, false⟩
        else ⟨st, none, .seatTaken seat, some seat, false, false⟩

/-- Model of `make_reservation_safe(user_id, flight_id, preferred_seat=None)`.
`rand` stands for the entropy of `random.choice` (used as an index into the
sample), `rid` for the fresh `uuid4` reservation id, `now` for
`datetime.now`. -/
def make_reservation_safe (fl : Faults) (st : Store) (user : UserId)
    (fid : FlightId) (preferred : Option SeatLabel) (rand : Nat) (rid : ResId)
    (now : Nat) : ClaimResult :=
  match preferred with
  | some s => claimSeat fl st user fid s rid now
  | none =>
      if fl.sampleThrows then exceptBranch fl st fid none false
      else
        let sample := availableSample st fid
        if sample.isEmpty then ⟨st, none, .noSeats, none, false, false⟩
        else claimSeat fl st user fid (sample.getD (rand % sample.length) (0, 0))
          rid now

/-- Model of `update_reservation(reservation_id, new_seat, new_status)`:
returns the post store and the boolean result. -/
def update_reservation (st : Store) (rid : ResId) (new_seat : Option SeatLabel)
    (new_status : Option String) : Store × Bool :=
  if new_seat = none ∧ new_status = none then (st, false)
  else
    match lookupA st.reservations rid with
    | none => (st, false)
    | some cur =>
        let final_seat := new_seat.getD cur.seat_number
        let final_status := new_status.getD cur.status
        ({ st with
           reservations := upsertA st.reservations rid
             { cur with seat_number := final_seat, status := final_status } },
         true)

/-- Field `total_seats` of `get_flight_status`: the COUNT(*) over
`seat_availability` for the flight. -/
def totalSeatsOf (st : Store) (fid : FlightId) : Nat :=
  (st.seats.filter fun kv => kv.1.1 = fid).length

/-- The true number of claimed seats, derived from the seat rows
(`is_available = false`). -/
def trueClaimedCount (st : Store) (fid : FlightId) : Nat :=
  (st.seats.filter fun kv => kv.1.1 = fid ∧ kv.2.is_available = false).length

/-- Field `available_seats` of `get_flight_status`: the value of the flight row, the
denormalized counter (0 as a placeholder when the flight row is absent; the
theorems using this assume the row is present, as `stress_test_3` does). -/
def availCounterOf (st : Store) (fid : FlightId) : Int :=
  ((lookupA st.flights fid).map fun f => f.available_seats).getD 0

/-- Quantity computed by `stress_test_3_seat_competition`:
`seats_reserved = final_status['total_seats'] - final_status['available_seats']`. -/
def seatsReservedReported (st : Store) (fid : FlightId) : Int :=
  (totalSeatsOf st fid : Int) - availCounterOf st fid

/-- The no-overselling check printed by `_analyze_fairness`:
`seats_reserved <= total_seats`, where `seats_reserved` is computed on the
post-run store and `total_seats` is the `available_seats` counter that
`stress_test_3_seat_competition` read at the start of the run. -/
def oversellCheck (stInit stFinal : Store) (fid : FlightId) : Bool :=
  seatsReservedReported stFinal fid ≤ availCounterOf stInit fid

/-- The loop of `stress_test_1_rapid_requests`: one user, one flight, the
attempts strictly sequential, each with its own entropy and fresh
reservation id; returns the post store and per-attempt success flags
(`reservation_id` truthy). -/
def runSerial (st : Store) (user : UserId) (fid : FlightId) :
    List (Nat × ResId) → Store × List Bool
  | [] => (st, [])
  | (rand, rid) :: rest =>
      let r := make_reservation_safe noFaults st user fid none rand rid 0
      let rec' := runSerial r.store user fid rest
      (rec'.1, r.res_id.isSome :: rec'.2)

/-- State of `StressTestResults` (all five fields; every mutation happens under
`self.lock`, so any concurrent execution is some sequentialisation of the
calls). Latencies are rationals. -/
structure StressTestResults where
  successful_reservations : Nat
  failed_reservations : Nat
  errors : List String
  response_times : List ℚ
  reservations_by_client : List (Nat × Nat)
deriving DecidableEq, Repr

def StressTestResults.empty : StressTestResults := ⟨0, 0, [], [], []⟩

/-- Increment of the `defaultdict(int)`: `reservations_by_client[client_id] += 1`. -/
def bump : List (Nat × Nat) → Nat → List (Nat × Nat)
  | [], k => [(k, 1)]
  | (k', v) :: t, k => if k' = k then (k', v + 1) :: t else (k', v) :: bump t k

/-- Model of `record_success(response_time, client_id=None)`. -/
def record_success (s : StressTestResults) (rt : ℚ) (client : Option Nat) :
    StressTestResults :=
  { s with
    successful_reservations := s.successful_reservations + 1
    response_times := s.response_times ++ [rt]
    reservations_by_client :=
      match client with
      | none => s.reservations_by_client
      | some c => bump s.reservations_by_client c }

/-- Model of `record_failure(error_msg, response_time, client_id=None)` (the
client id is accepted but not recorded). -/
def record_failure (s : StressTestResults) (msg : String) (rt : ℚ)
    (_client : Option Nat) : StressTestResults :=
  { s with
    failed_reservations := s.failed_reservations + 1
    errors := s.errors ++ [msg]
    response_times := s.response_times ++ [rt] }

/-- The dictionary returned by `get_stats`. -/
structure Stats where
  total_requests : Nat
  successful : Nat
  failed : Nat
  success_rate : ℚ
  avg_response_time : ℚ
  unique_errors : Nat
  client_distribution : List (Nat × Nat)
deriving DecidableEq, Repr

/-- Model of `get_stats()`, with its two guarded divisions. -/
def get_stats (s : StressTestResults) : Stats :=
  let total := s.successful_reservations + s.failed_reservations
  { total_requests := total
    successful := s.successful_reservations
    failed := s.failed_reservations
    success_rate :=
      if total > 0 then (s.successful_reservations : ℚ) / (total : ℚ) * 100 else 0
    avg_response_time :=
      if s.response_times ≠ [] then
        s.response_times.sum / (s.response_times.length : ℚ)
      else 0
    unique_errors := s.errors.dedup.length
    client_distribution := s.reservations_by_client }

/-- One call into `StressTestResults`, as issued by a worker. -/
inductive StressEvent where
  | succ (rt : ℚ) (client : Option Nat)
  | fail (msg : String) (rt : ℚ) (client : Option Nat)
deriving DecidableEq, Repr

def applyEvent (s : StressTestResults) : StressEvent → StressTestResults
  | .succ rt c => record_success s rt c
  | .fail msg rt c => record_failure s msg rt c

/-- A sequential history of `record_success`/`record_failure` calls (the
lock makes every concurrent run equivalent to one such history). -/
def runEvents (s : StressTestResults) (evs : List StressEvent) :
    StressTestResults :=
  evs.foldl applyEvent s

def StressEvent.isSucc : StressEvent → Bool
  | .succ _ _ => true
  | .fail _ _ _ => false

/-- Outcome of `_analyze_fairness` for the client-distribution part. -/
inductive FairnessOutcome where
  | passed (r : ℚ)
  | concern (r : ℚ)
  | failedZero
  | failedNoData
deriving DecidableEq, Repr

def FairnessOutcome.isPassed : FairnessOutcome → Bool
  | .passed _ => true
  | _ => false

/-- Model of `_analyze_fairness`, client-distribution part: with at least two
clients recorded, take min and max of the counts; if the min is positive,
report `min/max` and pass iff it is at least 0.3; a zero min or fewer than
two clients fails. -/
def analyze_fairness (dist : List (Nat × Nat)) : FairnessOutcome :=
  if 2 ≤ dist.length then
    let counts := dist.map fun kv => kv.2
    let mn := counts.foldr Nat.min (counts.headD 0)
    let mx := counts.foldr Nat.max 0
    if 0 < mn then
      let r : ℚ := if 0 < mx then (mn : ℚ) / (mx : ℚ) else 0
      if 3 / 10 ≤ r then .passed r else .concern r
    else .failedZero
  else .failedNoData

/-- A sequential history of conditional writes on one seat key: the
storage layer linearizes the LWTs per key, so any set of concurrent claim
attempts on one seat is equivalent to some such sequence. -/
def runLwtClaims (r : SeatRow) : List (UserId × Nat) → List Bool
  | [] => []
  | (u, t) :: rest =>
      let res := lwtClaim r u t
      res.1 :: runLwtClaims res.2 rest

/-- Concrete stores used as inputs of closed theorems below. -/
def emptyStore : Store := ⟨[], [], []⟩

/-- A flight with id 0 whose two seats were created by `create_flight`. -/
def exFlightTwoSeats : Store := create_flight emptyStore 0 "A" "B" 0 1 2

/-- A store where seat A1 of flight 0 is already claimed by user 99. -/
def exTakenSeatStore : Store :=
  ⟨[(0, ⟨"A", "B", 0, 1, 0⟩)], [((0, (65, 1)), ⟨false, some 99, some 5⟩)], []⟩

/-- A store where seat A1 of flight 0 is present and available. -/
def exAvailSeatStore : Store :=
  ⟨[(0, ⟨"A", "B", 0, 1, 1⟩)], [((0, (65, 1)), freshSeatRow)], []⟩

/-- Post-state of two interleaved claims on the two-seat flight 0 whose
counter read-modify-writes both read 2 and both wrote back 1 (the lost
update documented for `available_seats`): both seat rows are claimed but
the counter says 1. -/
def exDriftStore : Store :=
  ⟨[(0, ⟨"A", "B", 0, 1, 1⟩)],
   [((0, (65, 1)), ⟨false, some 1, some 0⟩),
    ((0, (65, 2)), ⟨false, some 2, some 0⟩)],
   [(100, ⟨0, 1, (65, 1), 0, "confirmed"⟩),
    (101, ⟨0, 2, (65, 2), 0, "confirmed"⟩)]⟩

lemma lookupA_append {κ α : Type} [DecidableEq κ] (l1 l2 : List (κ × α)) (k : κ) :
    lookupA (l1 ++ l2) k =
      match lookupA l1 k with
      | some v => some v
      | none => lookupA l2 k := by
  induction l1 with
  | nil => simp [lookupA]
  | cons p t ih =>
      obtain ⟨k', v⟩ := p
      by_cases h : k' = k <;> simp [lookupA, h, ih]

lemma lookupA_some_of_mem {κ α : Type} [DecidableEq κ] {l : List (κ × α)}
    {k : κ} {v : α} (h : (k, v) ∈ l) : ∃ w, lookupA l k = some w := by
  induction l with
  | nil => simp at h
  | cons p t ih =>
      obtain ⟨k', v'⟩ := p
      by_cases hk : k' = k
      · exact ⟨v', by simp [lookupA, hk]⟩
      · rcases List.mem_cons.mp h with h1 | h1
        · exact absurd (congrArg Prod.fst h1).symm hk
        · obtain ⟨w, hw⟩ := ih h1
          exact ⟨w, by simp [lookupA, hk, hw]⟩

lemma upsertA_of_lookup_none {κ α : Type} [DecidableEq κ] {l : List (κ × α)}
    {k : κ} (v : α) (h : lookupA l k = none) : upsertA l k v = l ++ [(k, v)] := by
  induction l with
  | nil => simp [upsertA]
  | cons p t ih =>
      obtain ⟨k', v'⟩ := p
      by_cases hk : k' = k
      · simp [lookupA, hk] at h
      · simp [lookupA, hk] at h
        simp [upsertA, hk, ih h]

lemma lookupA_upsertA_self {κ α : Type} [DecidableEq κ] (l : List (κ × α))
    (k : κ) (v : α) : lookupA (upsertA l k v) k = some v := by
  induction l with
  | nil => simp [upsertA, lookupA]
  | cons p t ih =>
      obtain ⟨k', v'⟩ := p
      by_cases hk : k' = k <;> simp [upsertA, lookupA, hk, ih]

lemma seatLabel_injOn {a b : Nat} (ha : 1 ≤ a) (hb : 1 ≤ b)
    (h : seatLabel a = seatLabel b) : a = b := by
  unfold seatLabel at h
  obtain ⟨h1, h2⟩ := Prod.mk.injEq .. ▸ h
  have hd : (a - 1) / 6 = (b - 1) / 6 := by omega
  have hm : (a - 1) % 6 = (b - 1) % 6 := by omega
  have := Nat.div_add_mod (a - 1) 6
  have := Nat.div_add_mod (b - 1) 6
  omega

lemma insertSeats_flights (st : Store) (fid : FlightId) (n : Nat) :
    (insertSeats st fid n).flights = st.flights := by
  induction n with
  | zero => rfl
  | succ n ih => simp [insertSeats, ih]

lemma insertSeats_reservations (st : Store) (fid : FlightId) (n : Nat) :
    (insertSeats st fid n).reservations = st.reservations := by
  induction n with
  | zero => rfl
  | succ n ih => simp [insertSeats, ih]

lemma lookupA_eq_none_of_not_mem {κ α : Type} [DecidableEq κ]
    {l : List (κ × α)} {k : κ} (h : k ∉ l.map Prod.fst) : lookupA l k = none := by
  induction l with
  | nil => rfl
  | cons p t ih =>
      obtain ⟨k', v'⟩ := p
      simp only [List.map_cons, List.mem_cons] at h
      push_neg at h
      simp [lookupA, Ne.symm h.1, ih h.2]

lemma insertSeats_seats (st : Store) (fid : FlightId) (n : Nat)
    (hfresh : ∀ lbl : SeatLabel, lookupA st.seats (fid, lbl) = none) :
    (insertSeats st fid n).seats =
      st.seats ++ (List.range n).map fun i => ((fid, seatLabel (i + 1)), freshSeatRow) := by
  induction n with
  | zero => simp [insertSeats]
  | succ n ih =>
      have hnone :
          lookupA ((List.range n).map fun i => ((fid, seatLabel (i + 1)), freshSeatRow))
            (fid, seatLabel (n + 1)) = none := by
        apply lookupA_eq_none_of_not_mem
        intro hmem
        simp only [List.map_map, List.mem_map, Function.comp] at hmem
        obtain ⟨i, hi, heq⟩ := hmem
        have : seatLabel (i + 1) = seatLabel (n + 1) := congrArg Prod.snd heq
        have := seatLabel_injOn (by omega) (by omega) this
        have := List.mem_range.mp hi
        omega
      have happ : lookupA (st.seats ++
          (List.range n).map fun i => ((fid, seatLabel (i + 1)), freshSeatRow))
          (fid, seatLabel (n + 1)) = none := by
        rw [lookupA_append, hfresh (seatLabel (n + 1)), hnone]
      simp only [insertSeats, ih]
      rw [upsertA_of_lookup_none freshSeatRow happ, List.range_succ, List.map_append,
        List.append_assoc]
      rfl

lemma seatsOf_create_flight (st : Store) (fid : FlightId)
    (origin destination : String) (dep arr n : Nat)
    (hfresh : ∀ lbl : SeatLabel, lookupA st.seats (fid, lbl) = none) :
    seatsOf (create_flight st fid origin destination dep arr n) fid =
      (List.range n).map fun i => (seatLabel (i + 1), freshSeatRow) := by
  unfold create_flight seatsOf
  rw [insertSeats_seats _ _ _ (by simpa using hfresh), List.filterMap_append]
  have h1 : st.seats.filterMap
      (fun kv => if kv.1.1 = fid then some (kv.1.2, kv.2) else none) = [] := by
    rw [List.filterMap_eq_nil_iff]
    intro kv hkv
    by_cases hf : kv.1.1 = fid
    · exfalso
      have hmem : ((fid, kv.1.2), kv.2) ∈ st.seats := by
        rw [show ((fid, kv.1.2), kv.2) = kv from by rw [← hf]]
        exact hkv
      obtain ⟨w, hw⟩ := lookupA_some_of_mem hmem
      rw [hfresh kv.1.2] at hw
      exact Option.noConfusion hw
    · simp [hf]
  rw [h1, List.nil_append, List.filterMap_map]
  have hc : ((fun kv : (FlightId × SeatLabel) × SeatRow =>
      if kv.1.1 = fid then some (kv.1.2, kv.2) else none) ∘
      fun i : Nat => ((fid, seatLabel (i + 1)), freshSeatRow)) =
      some ∘ fun i : Nat => (seatLabel (i + 1), freshSeatRow) := by
    funext i
    simp
  rw [hc, List.filterMap_eq_map]

/-- C9: a successful `create_flight` with `total_seats = n ≥ 1` and a fresh
flight id inserts exactly `n` seat rows for the flight, with pairwise
distinct labels (the label map `seat_num` to
`(65+(seat_num-1)/6, (seat_num-1)%6+1)` is injective on 1..n), each row
available with null holder and null timestamp, sets `available_seats := n`,
and the counter equals the number of available seat rows. -/
theorem c9_create_flight_fresh (st : Store) (fid : FlightId)
    (origin destination : String) (dep arr n : Nat) (_hn : 1 ≤ n)
    (hfresh : ∀ lbl : SeatLabel, lookupA st.seats (fid, lbl) = none) :
    (seatsOf (create_flight st fid origin destination dep arr n) fid).length = n
    ∧ ((seatsOf (create_flight st fid origin destination dep arr n) fid).map
        Prod.fst).Nodup
    ∧ (∀ p ∈ seatsOf (create_flight st fid origin destination dep arr n) fid,
        p.2 = freshSeatRow)
    ∧ lookupA (create_flight st fid origin destination dep arr n).flights fid =
        some ⟨origin, destination, dep, arr, (n : Int)⟩
    ∧ ((seatsOf (create_flight st fid origin destination dep arr n) fid).filter
        fun p => p.2.is_available).length = n := by
  rw [seatsOf_create_flight st fid origin destination dep arr n hfresh]
  refine ⟨by simp, ?_, ?_, ?_, ?_⟩
  · rw [List.map_map]
    have : ((Prod.fst : SeatLabel × SeatRow → SeatLabel) ∘
        fun i : Nat => (seatLabel (i + 1), freshSeatRow)) =
        fun i : Nat => seatLabel (i + 1) := rfl
    rw [this]
    exact List.Nodup.map_on
      (fun x _ y _ h => by
        have := seatLabel_injOn (by omega) (by omega) h
        omega)
      (List.nodup_range n)
  · intro p hp
    obtain ⟨i, _, hi⟩ := List.mem_map.mp hp
    rw [← hi]
  · unfold create_flight
    rw [insertSeats_flights]
    exact lookupA_upsertA_self st.flights fid _
  · rw [List.filter_map]
    have : ((fun p : SeatLabel × SeatRow => p.2.is_available) ∘
        fun i : Nat => (seatLabel (i + 1), freshSeatRow)) = fun _ : Nat => true := rfl
    rw [this]
    simp

/-- C9 witness: the theorem applied to the empty store and a two-seat
flight. -/
theorem c9_witness :
    (seatsOf (create_flight emptyStore 0 "A" "B" 0 1 2) 0).length = 2 :=
  (c9_create_flight_fresh emptyStore 0 "A" "B" 0 1 2 (by decide) (fun _ => rfl)).1

lemma runLwtClaims_count_unavailable (attempts : List (UserId × Nat))
    (r : SeatRow) (h : r.is_available = false) :
    (runLwtClaims r attempts).count true = 0 := by
  induction attempts generalizing r with
  | nil => rfl
  | cons p rest ih =>
      obtain ⟨u, t⟩ := p
      simp [runLwtClaims, lwtClaim, h, List.count_cons, ih r h]

/-- C1: across any sequence of conditional writes on one seat key (the
linearization of any number of concurrent claim attempts), at most one
observes `applied = true` — none at all if the availability flag is already
false; a seat reverted to `freshSeatRow` can be claimed again; and a claim
on a seat whose row is unavailable returns the seat-taken failure and
leaves the store untouched. -/
theorem c1_at_most_one_applied (r : SeatRow) (attempts : List (UserId × Nat)) :
    ((runLwtClaims r attempts).count true ≤ if r.is_available = true then 1 else 0)
    ∧ (∀ (u : UserId) (t : Nat), (lwtClaim freshSeatRow u t).1 = true)
    ∧ (∀ (st : Store) (user fid rand rid now : Nat) (s : SeatLabel) (row : SeatRow),
        lookupA st.seats (fid, s) = some row → row.is_available = false →
        make_reservation_safe noFaults st user fid (some s) rand rid now =
          ⟨st, none, .seatTaken s, some s, false, false⟩) := by
  refine ⟨?_, fun u t => rfl, ?_⟩
  · cases hav : r.is_available with
    | false => rw [runLwtClaims_count_unavailable attempts r hav]; simp
    | true =>
        cases attempts with
        | nil => simp [runLwtClaims]
        | cons p rest =>
            obtain ⟨u, t⟩ := p
            simp [runLwtClaims, lwtClaim, hav, List.count_cons,
              runLwtClaims_count_unavailable rest ⟨false, some u, some t⟩ rfl]
  · intro st user fid rand rid now s row hrow hunav
    simp [make_reservation_safe, claimSeat, noFaults, hrow, lwtClaim, hunav]

/-- C1 witness: a claim on the already-taken seat A1 of flight 0 fails with
the seat-taken outcome and changes nothing. -/
theorem c1_witness :
    make_reservation_safe noFaults exTakenSeatStore 1 0 (some (65, 1)) 0 0 0 =
      ⟨exTakenSeatStore, none, .seatTaken (65, 1), some (65, 1), false, false⟩ :=
  (c1_at_most_one_applied freshSeatRow []).2.2 exTakenSeatStore 1 0 0 0 0
    (65, 1) ⟨false, some 99, some 5⟩ rfl rfl

/-- C10: `get_stats` on the freshly-constructed (empty) accumulator returns
0 total, 0 successes, 0 failures, success rate 0, average response time 0,
0 unique errors and an empty per-client distribution — both divisions are
guarded and nothing divides by zero. -/
theorem c10_get_stats_empty :
    get_stats StressTestResults.empty = ⟨0, 0, 0, 0, 0, 0, []⟩ := by
  decide

/-- C6: `update_reservation` on a reservation id with no record returns the
not-found failure `False` and performs no write: the store is unchanged. -/
theorem c6_update_nonexistent (st : Store) (rid : ResId)
    (new_seat : Option SeatLabel) (new_status : Option String)
    (h : lookupA st.reservations rid = none) :
    update_reservation st rid new_seat new_status = (st, false) := by
  unfold update_reservation
  split
  · rfl
  · rw [h]

/-- C6 witness: updating reservation 5 in an empty store. -/
theorem c6_witness :
    update_reservation emptyStore 5 none (some "cancelled") = (emptyStore, false) :=
  c6_update_nonexistent emptyStore 5 none (some "cancelled") rfl

/-- C3 (behaviour at the code-bug input): two strictly sequential attempts
by the single user 7 on a fresh 2-seat flight both succeed —
`make_reservation_safe` never checks whether the caller already holds a
reservation, so each attempt claims a fresh seat, contradicting the
expectation `1 success, N-1 failures` that `stress_test_1_rapid_requests`
itself prints. -/
theorem c3_two_attempts_both_succeed :
    (runSerial exFlightTwoSeats 7 0 [(0, 100), (0, 101)]).2 = [true, true] := by
  decide

/-- C2 counterexample: in the drift store (the state after two racing
claims whose unguarded counter updates collided), the quantity
`seats_reserved = total_seats - available_seats` that
`stress_test_3_seat_competition` checks against capacity differs from the
claimed-seat count derived from the seat rows — so the verified count is
not computed from the seat rows. -/
theorem c2_counterexample :
    seatsReservedReported exDriftStore 0 ≠ (trueClaimedCount exDriftStore 0 : Int) := by
  decide

/-- C2 (amended): the post-run no-overselling check of
`stress_test_3_seat_competition` compares `seats_reserved` = (seat-row
count of the flight) minus (the drifting post-run counter) against
`total_seats` = the counter value read at the start of the run, so neither
side is derived from seat-row availability; only when the post-run counter
has not drifted (it equals seat-row count minus claimed seat rows) is the
check equivalent to comparing the seat-row-derived claimed count with the
starting counter. -/
theorem c2_oversell_check_semantics (stInit stFinal : Store) (fid : FlightId)
    (hacc : availCounterOf stFinal fid =
      (totalSeatsOf stFinal fid : Int) - (trueClaimedCount stFinal fid : Int)) :
    oversellCheck stInit stFinal fid = true ↔
      (trueClaimedCount stFinal fid : Int) ≤ availCounterOf stInit fid := by
  unfold oversellCheck seatsReservedReported
  rw [hacc]
  simp only [decide_eq_true_eq]
  constructor <;> intro h <;> omega

/-- C2 witness: the amended check evaluated on a fresh two-seat flight
(whose counter is accurate). -/
theorem c2_witness : oversellCheck exFlightTwoSeats exFlightTwoSeats 0 = true :=
  (c2_oversell_check_semantics exFlightTwoSeats exFlightTwoSeats 0
    (by decide)).mpr (by decide)

lemma runEvents_totals (evs : List StressEvent) (s : StressTestResults) :
    (runEvents s evs).successful_reservations =
        s.successful_reservations + evs.countP (fun e => e.isSucc)
    ∧ (runEvents s evs).failed_reservations =
        s.failed_reservations + evs.countP (fun e => !e.isSucc) := by
  induction evs generalizing s with
  | nil => simp [runEvents]
  | cons e rest ih =>
      obtain ⟨ih1, ih2⟩ := ih (applyEvent s e)
      have hrun : runEvents s (e :: rest) = runEvents (applyEvent s e) rest := rfl
      cases e with
      | succ rt c =>
          refine ⟨?_, ?_⟩
          · rw [hrun, ih1]
            simp [applyEvent, record_success, List.countP_cons, StressEvent.isSucc]
            omega
          · rw [hrun, ih2]
            simp [applyEvent, record_success, List.countP_cons, StressEvent.isSucc]
      | fail msg rt c =>
          refine ⟨?_, ?_⟩
          · rw [hrun, ih1]
            simp [applyEvent, record_failure, List.countP_cons, StressEvent.isSucc]
          · rw [hrun, ih2]
            simp [applyEvent, record_failure, List.countP_cons, StressEvent.isSucc]
            omega

/-- C8: counting is a homomorphism from the call history. For any sequence
of `record_success`/`record_failure` calls (every concurrent run being some
sequentialisation, since each call holds the lock), the snapshot reports
total attempts equal to the number of calls, successes equal to the number
of `record_success` calls and failures equal to the number of
`record_failure` calls — no lost updates. -/
theorem c8_counting_homomorphism (evs : List StressEvent) :
    (get_stats (runEvents StressTestResults.empty evs)).total_requests = evs.length
    ∧ (get_stats (runEvents StressTestResults.empty evs)).successful =
        evs.countP (fun e => e.isSucc)
    ∧ (get_stats (runEvents StressTestResults.empty evs)).failed =
        evs.countP (fun e => !e.isSucc) := by
  obtain ⟨h1, h2⟩ := runEvents_totals evs StressTestResults.empty
  refine ⟨?_, ?_, ?_⟩
  · show (runEvents StressTestResults.empty evs).successful_reservations +
        (runEvents StressTestResults.empty evs).failed_reservations = evs.length
    rw [h1, h2]
    show 0 + _ + (0 + _) = _
    have := List.length_eq_countP_add_countP (p := fun e => StressEvent.isSucc e) evs
    simp only [Nat.zero_add]
    rw [this]
    congr 1
    apply List.countP_congr
    intro e _
    cases he : e.isSucc <;> simp [he]
  · show (runEvents StressTestResults.empty evs).successful_reservations =
        evs.countP (fun e => e.isSucc)
    rw [h1]
    simp [StressTestResults.empty]
  · show (runEvents StressTestResults.empty evs).failed_reservations =
        evs.countP (fun e => !e.isSucc)
    rw [h2]
    simp [StressTestResults.empty]

lemma exceptBranch_chosen (fl : Faults) (st : Store) (fid : FlightId)
    (s : SeatLabel) (cas : Bool) :
    (exceptBranch fl st fid (some s) cas).chosen = some s := by
  simp only [exceptBranch]
  split <;> rfl

lemma claimSeat_chosen (fl : Faults) (st : Store) (user : UserId)
    (fid : FlightId) (seat : SeatLabel) (rid : ResId) (now : Nat) :
    (claimSeat fl st user fid seat rid now).chosen = some seat := by
  unfold claimSeat
  dsimp only
  repeat' split
  all_goals first | rfl | apply exceptBranch_chosen

/-- C5: with no seat label supplied, the claim reads a sample of at most 10
available seats of the flight (every sampled label belongs to an available
seat row); an empty sample fails with the no-seats outcome, no conditional
write and an unchanged store; a nonempty sample has the seat picked from it
at the random index. -/
theorem c5_sampling (st : Store) (fid : FlightId) (user : UserId)
    (rand : Nat) (rid : ResId) (now : Nat) :
    (availableSample st fid).length ≤ 10
    ∧ (∀ s ∈ availableSample st fid,
        ∃ row, ((fid, s), row) ∈ st.seats ∧ row.is_available = true)
    ∧ (availableSample st fid = [] →
        make_reservation_safe noFaults st user fid none rand rid now =
          ⟨st, none, .noSeats, none, false, false⟩)
    ∧ (availableSample st fid ≠ [] →
        (make_reservation_safe noFaults st user fid none rand rid now).chosen =
          some ((availableSample st fid).getD
            (rand % (availableSample st fid).length) (0, 0))
        ∧ (availableSample st fid).getD
            (rand % (availableSample st fid).length) (0, 0) ∈
              availableSample st fid) := by
  refine ⟨?_, ?_, ?_, ?_⟩
  · unfold availableSample
    exact List.length_take_le 10 _
  · intro s hs
    have hs' := List.mem_of_mem_take hs
    obtain ⟨kv, hkv, hkvs⟩ := List.mem_map.mp hs'
    have hkv' := List.mem_filter.mp hkv
    have hp := of_decide_eq_true hkv'.2
    refine ⟨kv.2, ?_, hp.2⟩
    have : ((fid, s), kv.2) = kv := by
      rw [← hp.1, ← hkvs]
    rw [this]
    exact hkv'.1
  · intro h
    simp [make_reservation_safe, noFaults, h]
  · intro h
    constructor
    · simp only [make_reservation_safe, noFaults, Bool.false_eq_true, if_false,
        List.isEmpty_iff, h, if_neg]
      exact claimSeat_chosen _ _ _ _ _ _ _
    · have hlt : rand % (availableSample st fid).length <
          (availableSample st fid).length :=
        Nat.mod_lt _ (List.length_pos.mpr h)
      rw [List.getD_eq_getElem?_getD, List.getElem?_eq_getElem hlt]
      exact List.getElem_mem hlt

/-- C5 witness: on a store with no seat rows the sample is empty, the call
fails with the no-seats outcome and writes nothing. -/
theorem c5_witness :
    make_reservation_safe noFaults emptyStore 1 0 none 0 0 0 =
      ⟨emptyStore, none, .noSeats, none, false, false⟩ :=
  (c5_sampling emptyStore 0 1 0 0 0).2.2.1 rfl

lemma bump_keys (l : List (Nat × Nat)) (k : Nat) :
    (bump l k).map Prod.fst =
      if k ∈ l.map Prod.fst then l.map Prod.fst else l.map Prod.fst ++ [k] := by
  induction l with
  | nil => simp [bump]
  | cons p t ih =>
      obtain ⟨k', v⟩ := p
      by_cases hk : k' = k
      · subst hk
        simp [bump]
      · simp only [bump, if_neg hk, List.map_cons, ih]
        by_cases hm : k ∈ t.map Prod.fst
        · simp [hm, Ne.symm hk]
        · simp [hm, Ne.symm hk]

lemma runEvents_client_keys (evs : List StressEvent) (s : StressTestResults) :
    ∀ k ∈ (runEvents s evs).reservations_by_client.map Prod.fst,
      k ∈ s.reservations_by_client.map Prod.fst ∨
        ∃ rt : ℚ, StressEvent.succ rt (some k) ∈ evs := by
  induction evs generalizing s with
  | nil => intro k hk; exact Or.inl hk
  | cons e rest ih =>
      intro k hk
      have hk' := ih (applyEvent s e) k hk
      rcases hk' with hk' | ⟨rt, hrt⟩
      · cases e with
        | fail msg rt c => exact Or.inl hk'
        | succ rt c =>
            cases c with
            | none => exact Or.inl hk'
            | some c' =>
                simp only [applyEvent, record_success, bump_keys] at hk'
                by_cases hm : c' ∈ s.reservations_by_client.map Prod.fst
                · rw [if_pos hm] at hk'
                  exact Or.inl hk'
                · rw [if_neg hm] at hk'
                  rcases List.mem_append.mp hk' with h | h
                  · exact Or.inl h
                  · have : k = c' := by simpa using h
                    subst this
                    exact Or.inr ⟨rt, List.mem_cons_self _ _⟩
      · exact Or.inr ⟨rt, List.mem_cons_of_mem _ hrt⟩

lemma runEvents_client_nodup (evs : List StressEvent) (s : StressTestResults)
    (h : (s.reservations_by_client.map Prod.fst).Nodup) :
    ((runEvents s evs).reservations_by_client.map Prod.fst).Nodup := by
  induction evs generalizing s with
  | nil => exact h
  | cons e rest ih =>
      refine ih (applyEvent s e) ?_
      cases e with
      | fail msg rt c => exact h
      | succ rt c =>
          cases c with
          | none => exact h
          | some c' =>
              simp only [applyEvent, record_success, bump_keys]
              by_cases hm : c' ∈ s.reservations_by_client.map Prod.fst
              · rw [if_pos hm]; exact h
              · rw [if_neg hm]
                simp [List.nodup_append, h, hm]

lemma length_le_one_of_nodup_const {l : List Nat}
    (hn : l.Nodup) (ha : ∀ x ∈ l, x = 0) : l.length ≤ 1 := by
  match l with
  | [] => simp
  | [a] => simp
  | a :: b :: t =>
      exfalso
      have ha' := ha a (by simp)
      have hb' := ha b (by simp)
      have := (List.nodup_cons.mp hn).1
      rw [ha', hb'] at this
      exact this (by simp)

/-- C7: in the head-to-head fairness analysis, with both workers recording
a positive success count the reported ratio is the smaller count divided by
the larger and the run passes exactly when that ratio reaches the fixed 0.3
threshold; and any run of the harness in which one of the two competing
workers records zero successes (so its client id never enters the
distribution) is flagged as failing fairness. -/
theorem c7_fairness_analysis :
    (∀ n0 n1 : Nat, 0 < n0 → 0 < n1 →
      analyze_fairness [(0, n0), (1, n1)] =
        if (3 : ℚ) / 10 ≤ (Nat.min n0 n1 : ℚ) / (Nat.max n0 n1 : ℚ)
        then .passed ((Nat.min n0 n1 : ℚ) / (Nat.max n0 n1 : ℚ))
        else .concern ((Nat.min n0 n1 : ℚ) / (Nat.max n0 n1 : ℚ)))
    ∧ (∀ evs : List StressEvent,
        (∀ (rt : ℚ) (c : Option Nat), StressEvent.succ rt c ∈ evs → c = some 0) →
        (analyze_fairness
          (get_stats (runEvents StressTestResults.empty evs)).client_distribution).isPassed
          = false) := by
  constructor
  · intro n0 n1 h0 h1
    unfold analyze_fairness
    simp only [List.length_cons, List.length_nil, List.map_cons, List.map_nil,
      List.foldr_cons, List.foldr_nil, List.headD_cons]
    rw [show Nat.min n0 (Nat.min n1 n0) = Nat.min n0 n1 by
      simp only [Nat.min_def]
      split_ifs <;> omega]
    rw [show Nat.max n0 (Nat.max n1 0) = Nat.max n0 n1 by
      simp only [Nat.max_def]
      split_ifs <;> omega]
    rw [if_pos (by omega : 2 ≤ 0 + 1 + 1)]
    rw [if_pos (show 0 < Nat.min n0 n1 by
      simp only [Nat.min_def]
      split_ifs <;> omega)]
    rw [if_pos (show 0 < Nat.max n0 n1 by
      simp only [Nat.max_def]
      split_ifs <;> omega)]
  · intro evs hsucc
    have hkeys : ∀ k ∈ (runEvents StressTestResults.empty evs).reservations_by_client.map
        Prod.fst, k = 0 := by
      intro k hk
      rcases runEvents_client_keys evs StressTestResults.empty k hk with h | ⟨rt, hrt⟩
      · simp [StressTestResults.empty] at h
      · have := hsucc rt (some k) hrt
        simpa using this
    have hnodup := runEvents_client_nodup evs StressTestResults.empty (by
      simp [StressTestResults.empty])
    have hlen : (runEvents StressTestResults.empty evs).reservations_by_client.length ≤ 1 := by
      have := length_le_one_of_nodup_const hnodup hkeys
      simpa using this
    show (analyze_fairness
      (runEvents StressTestResults.empty evs).reservations_by_client).isPassed = false
    unfold analyze_fairness
    rw [if_neg (by omega)]
    rfl

/-- C7 witness: equal positive counts pass with ratio 1, and a history
whose only success belongs to worker 0 fails the analysis. -/
theorem c7_witness :
    analyze_fairness [(0, 1), (1, 1)] = .passed 1
    ∧ (analyze_fairness
        (get_stats (runEvents StressTestResults.empty
          [.succ 0 (some 0)])).client_distribution).isPassed = false := by
  constructor
  · have h := c7_fairness_analysis.1 1 1 (by omega) (by omega)
    rw [h]
    norm_num
  · refine c7_fairness_analysis.2 [.succ 0 (some 0)] ?_
    intro rt c hc
    simp at hc
    exact hc.2

lemma exceptBranch_spec (fl : Faults) (st : Store) (fid : FlightId)
    (seatOpt : Option SeatLabel) (cas : Bool) :
    (exceptBranch fl st fid seatOpt cas).reason = .storageFailure
    ∧ (exceptBranch fl st fid seatOpt cas).chosen = seatOpt
    ∧ (exceptBranch fl st fid seatOpt cas).compAttempted = seatOpt.isSome := by
  cases seatOpt with
  | none => exact ⟨rfl, rfl, rfl⟩
  | some s =>
      simp only [exceptBranch]
      split <;> exact ⟨rfl, rfl, rfl⟩

lemma claimSeat_comp_iff (fl : Faults) (st : Store) (user : UserId)
    (fid : FlightId) (seat : SeatLabel) (rid : ResId) (now : Nat) :
    ((claimSeat fl st user fid seat rid now).compAttempted = true ↔
      ((claimSeat fl st user fid seat rid now).reason = .storageFailure ∧
        (claimSeat fl st user fid seat rid now).chosen.isSome = true)) := by
  unfold claimSeat
  dsimp only
  repeat' split
  all_goals simp only [exceptBranch]
  all_goals try (split <;> simp)
  all_goals simp

/-- C4 counterexample: with seat A1 of flight 0 already claimed by user 99,
a claim by user 1 naming A1 whose conditional-write request throws reaches
the `except` branch with `preferred_seat` set: the compensating write is
attempted (and even resets the other user's seat to available) although the
conditional write was never applied — compensation is not restricted to
failures after a successful conditional write. -/
theorem c4_counterexample :
    (make_reservation_safe ⟨false, true, false, false, false⟩ exTakenSeatStore 1 0
      (some (65, 1)) 0 200 7).compAttempted = true
    ∧ (make_reservation_safe ⟨false, true, false, false, false⟩ exTakenSeatStore 1 0
      (some (65, 1)) 0 200 7).casApplied = false
    ∧ lookupA (make_reservation_safe ⟨false, true, false, false, false⟩
        exTakenSeatStore 1 0 (some (65, 1)) 0 200 7).store.seats (0, (65, 1)) =
        some freshSeatRow := by
  decide

/-- C4 (amended): the compensating write is attempted exactly when the
attempt ends in the storage-failure outcome (an exception inside the `try`
block) with a candidate seat determined — which includes the conditional
write itself throwing before applying; and when the ledger insert fails
after a successful conditional write and the compensation write also
fails, the seat is left claimed by the caller with no reservation record
written, and the call returns a failure result instead of raising. -/
theorem c4_compensation_amended :
    (∀ (fl : Faults) (st : Store) (user fid : Nat) (preferred : Option SeatLabel)
      (rand rid now : Nat),
      (make_reservation_safe fl st user fid preferred rand rid now).compAttempted =
          true ↔
        ((make_reservation_safe fl st user fid preferred rand rid now).reason =
            .storageFailure
          ∧ (make_reservation_safe fl st user fid preferred rand rid now).chosen.isSome =
            true))
    ∧ (∀ (fl : Faults) (st : Store) (user fid : Nat) (s : SeatLabel) (row : SeatRow)
        (rand rid now : Nat),
        fl.casThrows = false → fl.insertThrows = true → fl.rollbackThrows = true →
        lookupA st.seats (fid, s) = some row → row.is_available = true →
        (make_reservation_safe fl st user fid (some s) rand rid now).res_id = none
        ∧ lookupA (make_reservation_safe fl st user fid (some s) rand rid now).store.seats
            (fid, s) = some ⟨false, some user, some now⟩
        ∧ (make_reservation_safe fl st user fid (some s) rand rid now).store.reservations
            = st.reservations
        ∧ (make_reservation_safe fl st user fid (some s) rand rid now).reason =
            .storageFailure) := by
  constructor
  · intro fl st user fid preferred rand rid now
    cases preferred with
    | some s => exact claimSeat_comp_iff fl st user fid s rid now
    | none =>
        simp only [make_reservation_safe]
        by_cases hs : fl.sampleThrows = true
        · rw [if_pos hs]
          simp [exceptBranch]
        · rw [if_neg hs]
          by_cases he : (availableSample st fid).isEmpty = true
          · rw [if_pos he]
            simp
          · rw [if_neg he]
            exact claimSeat_comp_iff fl st user fid _ rid now
  · intro fl st user fid s row rand rid now hcas hins hroll hrow hav
    simp only [make_reservation_safe, claimSeat, hcas, Bool.false_eq_true, if_false,
      hrow, lwtClaim, hav, if_true, hins, exceptBranch, hroll]
    simp [lookupA_upsertA_self]

/-- C4 witness: the amended orphaned-claim clause applied to a store whose
seat A1 of flight 0 is available, with the ledger insert and the
compensation write both failing. -/
theorem c4_witness :
    (make_reservation_safe ⟨false, false, true, false, true⟩ exAvailSeatStore 1 0
      (some (65, 1)) 0 300 9).res_id = none
    ∧ lookupA (make_reservation_safe ⟨false, false, true, false, true⟩
        exAvailSeatStore 1 0 (some (65, 1)) 0 300 9).store.seats (0, (65, 1)) =
        some ⟨false, some 1, some 9⟩
    ∧ (make_reservation_safe ⟨false, false, true, false, true⟩ exAvailSeatStore 1 0
        (some (65, 1)) 0 300 9).store.reservations = exAvailSeatStore.reservations
    ∧ (make_reservation_safe ⟨false, false, true, false, true⟩ exAvailSeatStore 1 0
        (some (65, 1)) 0 300 9).reason = .storageFailure :=
  c4_compensation_amended.2 ⟨false, false, true, false, true⟩ exAvailSeatStore 1 0
    (65, 1) freshSeatRow 0 300 9 rfl rfl rfl rfl rfl
